import Mathlib

/-!
Formal model of the `aws-base` repository.

This file shallowly embeds the parts of the code that the specification's
claims are about:

* the inter-service API client `ServiceAPIClient` and the helper
  `get_service_url` (`src/agsys/common/api_client.py`);
* the shared health helpers and Pydantic models
  (`src/agsys/common/health.py`, `src/agsys/common/models.py`);
* the route handlers of the FastAPI services
  (`src/backend/api/main.py`, `src/backend/s3vector/main.py`,
  `src/backend/vector/main.py`).

Conventions of the embedding:

* Python dictionaries with string keys/values are association lists
  (`Dict` below) with dict-assignment modelled as replace-or-append.
* Exceptions are explicit: fallible operations return `Except`, and the
  outcome of an external call (Secrets Manager, Bedrock, S3, httpx) is an
  inductive datum passed to the handler model, one constructor per
  exception class that the handler's `except` clauses distinguish.
* Wall-clock quantities (`processing_time_ms`, timestamps, uptime) and
  floating-point embedding values are opaque to every claim; embedding
  vectors are `List Int` and time fields are omitted or passed as opaque
  strings.
-/

namespace AwsBase

/-! ## Python dictionaries (string-keyed) -/

/-- A Python `dict[str, str]` as an association list (insertion ordered). -/
abbrev Dict := List (String × String)

/-- Python `d[k]` lookup: first binding wins (Python dicts have unique keys,
so on dict-shaped inputs this is the binding). -/
def dictLookup (d : Dict) (k : String) : Option String :=
  match d with
  | [] => none
  | (k2, v) :: rest => if k2 = k then some v else dictLookup rest k

/-- Python `k in d`. -/
def dictHasKey (d : Dict) (k : String) : Bool :=
  d.any (fun p => p.1 == k)

/-- Python `d[k] = v`: replace the binding in place if the key is present,
otherwise append it. -/
def dictSet (d : Dict) (k v : String) : Dict :=
  if dictHasKey d k then d.map (fun p => if p.1 = k then (k, v) else p)
  else d ++ [(k, v)]

/-! ## ServiceAPIClient (src/agsys/common/api_client.py) -/

/-- The retained state of a `ServiceAPIClient` (`__init__`, lines 31-78):
the configuration fields and the cached API key.  The lazily created
`boto3`/`httpx` clients carry no claim-relevant state and are left out. -/
structure ClientState where
  serviceName : String
  projectName : String
  environment : String
  cacheApiKey : Bool
  cachedApiKey : Option String
deriving Repr, DecidableEq

/-- The secret name used by `get_api_key` (line 103):
`f"{self.project_name}/{self.environment}/{self.service_name}/api-key"`. -/
def secretName (c : ClientState) : String :=
  c.projectName ++ "/" ++ c.environment ++ "/" ++ c.serviceName ++ "/api-key"

/-- Outcome of `secrets_client.get_secret_value(SecretId=...)`:
a response dict (whose `"SecretString"` key may be absent), a `None`
response, or a raised `botocore` `ClientError` with an error code. -/
inductive SecretResult where
  | resp (secretString : Option String)
  | respNone
  | clientError (code : String)
deriving Repr, DecidableEq

/-- The secret store: what `get_secret_value` yields for each `SecretId`. -/
abbrev SecretStore := String → SecretResult

/-- Python truthiness of `self._cached_api_key` (an `Optional[str]`):
`None` and `""` are falsy. -/
def truthy : Option String → Bool
  | none => false
  | some s => s != ""

/-- `"Invalid response from Secrets Manager for {secret_name}"` (line 108). -/
def invalidResponseMsg (name : String) : String :=
  "Invalid response from Secrets Manager for " ++ name

/-- The `ResourceNotFoundException` RuntimeError message (lines 121-124). -/
def notFoundMsg (name : String) : String :=
  "API key not found in Secrets Manager: " ++ name ++
    ". Make sure enable_service_api_keys is true in Terraform."

/-- The generic retrieval-failure RuntimeError message (lines 126-128). -/
def retrieveFailedMsg (code : String) : String :=
  "Failed to retrieve API key from Secrets Manager: " ++ code

/-- Result of one `get_api_key` call: the returned key or the raised
`RuntimeError` message, the client state afterwards, and the `SecretId`
queried at the secret store (`none` when no store call was made). -/
structure GetKeyOutcome where
  result : Except String String
  state : ClientState
  storeCalled : Option String

/-- `ServiceAPIClient.get_api_key` (lines 87-128).  The cache is consulted
only when `cache_api_key` is set and the cached value is truthy; on a
successful fetch the key is cached whenever `cache_api_key` is set. -/
def getApiKey (store : SecretStore) (c : ClientState) : GetKeyOutcome :=
  if c.cacheApiKey && truthy c.cachedApiKey then
    { result := Except.ok (c.cachedApiKey.getD ""), state := c, storeCalled := none }
  else
    let name := secretName c
    match store name with
    | SecretResult.respNone =>
        { result := Except.error (invalidResponseMsg name), state := c, storeCalled := some name }
    | SecretResult.resp none =>
        { result := Except.error (invalidResponseMsg name), state := c, storeCalled := some name }
    | SecretResult.resp (some apiKey) =>
        { result := Except.ok apiKey,
          state := if c.cacheApiKey then { c with cachedApiKey := some apiKey } else c,
          storeCalled := some name }
    | SecretResult.clientError code =>
        if code = "ResourceNotFoundException" then
          { result := Except.error (notFoundMsg name), state := c, storeCalled := some name }
        else
          { result := Except.error (retrieveFailedMsg code), state := c, storeCalled := some name }

/-- `ServiceAPIClient.invalidate_api_key_cache` (lines 130-132). -/
def invalidateApiKeyCache (c : ClientState) : ClientState :=
  { c with cachedApiKey := none }

/-- The client state after `n` consecutive `get_api_key` calls. -/
def iterateCalls (store : SecretStore) (c : ClientState) : Nat → ClientState
  | 0 => c
  | n + 1 => (getApiKey store (iterateCalls store c n)).state

/-- `ServiceAPIClient._get_headers` (lines 134-141): call `get_api_key`,
copy the caller's headers (or start from `{}`), and set `"x-api-key"`.
A `RuntimeError` from `get_api_key` propagates. -/
def getHeadersM (store : SecretStore) (c : ClientState) (headers : Option Dict) :
    Except String (Dict × ClientState) :=
  let o := getApiKey store c
  match o.result with
  | Except.error e => Except.error e
  | Except.ok apiKey =>
      let result := match headers with
        | some h => h
        | none => []
      Except.ok (dictSet result "x-api-key" apiKey, o.state)

/-- The four HTTP methods of the client (lines 156-220). -/
inductive HttpMethod where
  | get
  | post
  | put
  | delete
deriving Repr, DecidableEq

/-- What an outgoing request hands to the underlying `httpx` client, plus
the caller's headers dict after the call.  Since `_get_headers` copies the
caller's dict (`headers.copy()`) before writing into it, the caller's dict
is returned unchanged. -/
structure SentRequest where
  method : HttpMethod
  url : String
  headersSent : Dict
  callerHeadersAfter : Option Dict

/-- `ServiceAPIClient.get`/`post`/`put`/`delete` (lines 156-220): each
passes `headers=self._get_headers(headers)` to the underlying client; the
method, body and query parameters do not affect the headers. -/
def sendVia (m : HttpMethod) (store : SecretStore) (c : ClientState) (url : String)
    (headers : Option Dict) : Except String (SentRequest × ClientState) :=
  match getHeadersM store c headers with
  | Except.error e => Except.error e
  | Except.ok (hs, c2) =>
      Except.ok ({ method := m, url := url, headersSent := hs,
                   callerHeadersAfter := headers }, c2)

/-- The `ValueError` message of `get_service_url` (line 257). -/
def noBaseUrlMsg : String :=
  "base_url not provided and API_GATEWAY_URL environment variable not set"

/-- Python `base_url.rstrip("/")`: remove all trailing `/` characters. -/
def rstripSlashes (s : String) : String :=
  String.mk ((s.data.reverse.dropWhile (fun ch => ch == '/')).reverse)

/-- `get_service_url` (lines 238-263).  `envApiGatewayUrl` is the value of
the `API_GATEWAY_URL` environment variable (`none` = unset); `os.getenv`
with default `""` turns an unset variable into `""`, and `if not base_url`
rejects the empty string. -/
def get_service_url (service_name : String) (base_url : Option String)
    (envApiGatewayUrl : Option String) : Except String String :=
  let b := match base_url with
    | none => envApiGatewayUrl.getD ""
    | some s => s
  if b = "" then Except.error noBaseUrlMsg
  else Except.ok (rstripSlashes b ++ "/" ++ service_name)

/-! ## Embedding handlers (src/backend/s3vector/main.py, src/backend/vector/main.py)

The `generate_embedding`, `store_embedding`, `retrieve_embedding` handlers of
the two services are line-for-line identical (s3vector/main.py lines 247-372,
vector/main.py lines 258-383) except for where the model id and bucket name
are read from; they are embedded once, parameterised by those values. -/

/-- Embedding vectors.  The numeric JSON values are opaque to every claim,
so they are represented by `Int`. -/
abbrev EmbVec := List Int

/-- A JSON object whose contents no claim inspects. -/
abbrev JsonObj := List (String × String)

/-- A raised Python exception, at the granularity the handlers' `except`
clauses distinguish: a `botocore` `ClientError` (with its error code), a
FastAPI `HTTPException`, or any other exception (carrying its `str()`). -/
inductive PyExc where
  | clientError (code : String)
  | httpExc (status : Nat) (detail : String)
  | otherExc (msg : String)
deriving Repr, DecidableEq

/-- Python `str(e)` for the exceptions above.  For `HTTPException`,
starlette renders `f"{status_code}: {detail}"`; the rendering of a
`ClientError` is abstracted by its error code (no claim depends on it). -/
def excStr : PyExc → String
  | PyExc.clientError code => code
  | PyExc.httpExc status detail => toString status ++ ": " ++ detail
  | PyExc.otherExc msg => msg

/-- Outcome of `aws_clients.bedrock.invoke_model` together with the JSON
decoding of its body (lines 260-268): a decoded embedding, a raised
`ClientError`, or any other exception. -/
inductive BedrockResult where
  | ok (embedding : EmbVec)
  | clientError (code : String)
  | exc (msg : String)
deriving Repr, DecidableEq

/-- The validated body of `POST /embeddings/generate` (`EmbeddingRequest`,
s3vector/main.py lines 160-165): `text` with `min_length=1`, `store_in_s3`
defaulting to `False`, `embedding_id` defaulting to `None`. -/
structure EmbeddingRequestM where
  text : String
  store_in_s3 : Bool
  embedding_id : Option String
deriving Repr, DecidableEq

/-- `EmbeddingResponse` (lines 168-177) minus `processing_time_ms`, which
is wall-clock time and opaque to every claim. -/
structure EmbeddingResponseM where
  embedding : EmbVec
  dimension : Nat
  model : String
  text_length : Nat
  stored_in_s3 : Bool
  s3_key : Option String
deriving Repr, DecidableEq

/-- What a handler produces: a response body, or an `HTTPException` with a
status code and detail string. -/
inductive HandlerOutcome (α : Type) where
  | ok (resp : α)
  | httpError (status : Nat) (detail : String)
deriving Repr, DecidableEq

/-- The `try` block of `generate_embedding` (lines 256-298), as the value
it returns or the exception it raises.  `s3put` is the outcome of
`store_embedding_in_s3` (an S3 `put_object`, which can itself raise). -/
def generateTryBody (modelId : String) (bedrock : BedrockResult)
    (s3put : Except PyExc Unit) (req : EmbeddingRequestM) :
    Except PyExc EmbeddingResponseM :=
  match bedrock with
  | BedrockResult.clientError code => Except.error (PyExc.clientError code)
  | BedrockResult.exc msg => Except.error (PyExc.otherExc msg)
  | BedrockResult.ok embedding =>
      let afterStore : Except PyExc (Option String) :=
        if req.store_in_s3 then
          match req.embedding_id with
          | none =>
              Except.error (PyExc.httpExc 400 "embedding_id required when store_in_s3=true")
          | some eid =>
              match s3put with
              | Except.error e => Except.error e
              | Except.ok _ => Except.ok (some ("embeddings/" ++ eid ++ ".json"))
        else Except.ok none
      match afterStore with
      | Except.error e => Except.error e
      | Except.ok s3_key =>
          Except.ok
            { embedding := embedding,
              dimension := embedding.length,
              model := modelId,
              text_length := req.text.length,
              stored_in_s3 := req.store_in_s3,
              s3_key := s3_key }

/-- `generate_embedding` (lines 247-308): the `try` block followed by
`except ClientError` (HTTP 503 with the error code in the detail) and
`except Exception` (HTTP 500) — the latter also catches the 400
`HTTPException` raised for a missing `embedding_id`. -/
def generate_embedding (modelId : String) (bedrock : BedrockResult)
    (s3put : Except PyExc Unit) (req : EmbeddingRequestM) :
    HandlerOutcome EmbeddingResponseM :=
  match generateTryBody modelId bedrock s3put req with
  | Except.ok r => HandlerOutcome.ok r
  | Except.error (PyExc.clientError code) =>
      HandlerOutcome.httpError 503 ("Bedrock error: " ++ code)
  | Except.error e =>
      HandlerOutcome.httpError 500 ("Failed to generate embedding: " ++ excStr e)

/-- A stored embedding document as read back and field-projected by
`retrieve_embedding` (lines 352-364). -/
structure StoredDoc where
  id : String
  text : String
  embedding : EmbVec
  dimension : Nat
  metadata : JsonObj
deriving Repr, DecidableEq

/-- `RetrieveEmbeddingResponse` (lines 197-205). -/
structure RetrieveEmbeddingResponseM where
  embedding_id : String
  text : String
  embedding : EmbVec
  dimension : Nat
  metadata : JsonObj
deriving Repr, DecidableEq

/-- `DeleteEmbeddingResponse` (vector/main.py lines 150-156). -/
structure DeleteEmbeddingResponseM where
  success : Bool
  embedding_id : String
  message : String
deriving Repr, DecidableEq

/-- A write operation issued against the S3 store. -/
inductive S3Op where
  | putOp (bucket key : String)
  | deleteOp (bucket key : String)
deriving Repr, DecidableEq

/-- Outcome of `s3.get_object` plus the JSON decode and field reads in the
`try` block of `retrieve_embedding`: a fully parsed document, a raised
`NoSuchKey`, or any other exception (other `ClientError`s, decode errors,
missing fields — all reach `except Exception`). -/
inductive S3GetResult where
  | ok (doc : StoredDoc)
  | noSuchKey
  | otherExc (msg : String)
deriving Repr, DecidableEq

/-- `retrieve_embedding` (lines 338-372), together with the list of S3
write operations it issues (it performs none: `get_object` is the only
store access). -/
def retrieve_embedding (bucket : String) (s3get : S3GetResult) (embedding_id : String) :
    HandlerOutcome RetrieveEmbeddingResponseM × List S3Op :=
  if bucket = "" then
    (HandlerOutcome.httpError 503 "S3 bucket not configured", [])
  else
    match s3get with
    | S3GetResult.ok d =>
        (HandlerOutcome.ok
          { embedding_id := d.id, text := d.text, embedding := d.embedding,
            dimension := d.dimension, metadata := d.metadata }, [])
    | S3GetResult.noSuchKey =>
        (HandlerOutcome.httpError 404 ("Embedding not found: " ++ embedding_id), [])
    | S3GetResult.otherExc msg =>
        (HandlerOutcome.httpError 500 ("Failed to retrieve embedding: " ++ msg), [])

/-- Outcome of `s3.head_object` in `delete_embedding`'s existence check. -/
inductive HeadResult where
  | ok
  | clientError (code : String)
  | exc (msg : String)
deriving Repr, DecidableEq

/-- `delete_embedding` (vector/main.py lines 386-424), with the S3 write
operations it issues.  A `ClientError` with code `"404"` from `head_object`
becomes HTTP 404 and no `delete_object` is issued; other `ClientError`s are
re-raised and land in `except Exception` (the `except HTTPException` clause
re-raises only `HTTPException`s). -/
def delete_embedding (bucket : String) (head : HeadResult)
    (deleteCall : Except PyExc Unit) (embedding_id : String) :
    HandlerOutcome DeleteEmbeddingResponseM × List S3Op :=
  if bucket = "" then
    (HandlerOutcome.httpError 503 "S3 bucket not configured", [])
  else
    let key := "embeddings/" ++ embedding_id ++ ".json"
    match head with
    | HeadResult.clientError code =>
        if code = "404" then
          (HandlerOutcome.httpError 404 ("Embedding not found: " ++ embedding_id), [])
        else
          (HandlerOutcome.httpError 500
            ("Failed to delete embedding: " ++ excStr (PyExc.clientError code)), [])
    | HeadResult.exc msg =>
        (HandlerOutcome.httpError 500 ("Failed to delete embedding: " ++ msg), [])
    | HeadResult.ok =>
        match deleteCall with
        | Except.ok _ =>
            (HandlerOutcome.ok
              { success := true, embedding_id := embedding_id,
                message := "Embedding " ++ embedding_id ++ " successfully deleted" },
             [S3Op.deleteOp bucket key])
        | Except.error e =>
            (HandlerOutcome.httpError 500 ("Failed to delete embedding: " ++ excStr e),
             [S3Op.deleteOp bucket key])

/-! ## /inter-service endpoint (src/backend/api/main.py lines 445-514) -/

/-- Outcome of `await app.state.http_client.get(service_url)` followed by
`response.json()`: a status code with decoded body, a raised
`httpx.RequestError`, or any other exception (including JSON decode
failures, which the `try` block also covers). -/
inductive HttpxResult where
  | ok (statusCode : Nat) (body : JsonObj)
  | requestError (msg : String)
  | exc (msg : String)
deriving Repr, DecidableEq

/-- `InterServiceResponse` (api/main.py lines 307-313), minus the
wall-clock `response_time_ms`. -/
structure InterServiceResponseM where
  service_response : JsonObj
  status_code : Nat
  target_url : String
deriving Repr, DecidableEq

/-- `call_service` (api/main.py lines 445-514): the target's response is
returned regardless of its status code; `httpx.RequestError` becomes HTTP
503 and any other exception HTTP 500. -/
def call_service (service_url : String) (res : HttpxResult) :
    HandlerOutcome InterServiceResponseM :=
  match res with
  | HttpxResult.ok status body =>
      HandlerOutcome.ok
        { service_response := body, status_code := status, target_url := service_url }
  | HttpxResult.requestError msg =>
      HandlerOutcome.httpError 503
        ("Failed to reach service at " ++ service_url ++ ": " ++ msg)
  | HttpxResult.exc msg =>
      HandlerOutcome.httpError 500
        ("Unexpected error calling service at " ++ service_url ++ ": " ++ msg)

/-! ## Request-body validation (FastAPI/Pydantic, claim C6)

FastAPI validates the request body against the annotated Pydantic model
before the handler body runs; a validation failure yields HTTP 422 (no
service overrides the validation handler).  The raw body carries `none`
for an absent field. -/

/-- A raw `POST /embeddings/generate` body before validation. -/
structure RawEmbeddingBody where
  text : Option String
  store_in_s3 : Option Bool
  embedding_id : Option (Option String)
deriving Repr, DecidableEq

/-- Pydantic validation of `EmbeddingRequest` (s3vector/main.py lines
160-165): `text` is required with `min_length=1`; `store_in_s3` defaults
to `False` and `embedding_id` to `None`. -/
def validate_EmbeddingRequest (b : RawEmbeddingBody) : Except Unit EmbeddingRequestM :=
  match b.text with
  | none => Except.error ()
  | some t =>
      if t.length < 1 then Except.error ()
      else Except.ok { text := t, store_in_s3 := b.store_in_s3.getD false,
                       embedding_id := b.embedding_id.getD none }

/-- The `POST /embeddings/generate` route: validation, then the handler.
The second component counts `bedrock.invoke_model` calls (the handler
makes exactly one; a 422 rejection makes none). -/
def post_embeddings_generate (modelId : String) (bedrock : BedrockResult)
    (s3put : Except PyExc Unit) (body : RawEmbeddingBody) :
    HandlerOutcome EmbeddingResponseM × Nat :=
  match validate_EmbeddingRequest body with
  | Except.error _ => (HandlerOutcome.httpError 422 "validation error", 0)
  | Except.ok req => (generate_embedding modelId bedrock s3put req, 1)

/-- The shared `GreetingRequest` (agsys/common/models.py lines 32-35):
`name` required with `min_length=1`.  Validated form. -/
structure GreetingRequestM where
  name : String
deriving Repr, DecidableEq

/-- `GreetingResponse` (agsys/common/models.py lines 38-42). -/
structure GreetingResponseM where
  message : String
  version : String
deriving Repr, DecidableEq

/-- Pydantic validation of `GreetingRequest`: `name` is required
(`min_length=1`). -/
def validate_GreetingRequest (name : Option String) : Except Unit GreetingRequestM :=
  match name with
  | none => Except.error ()
  | some n => if n.length < 1 then Except.error () else Except.ok { name := n }

/-- A `POST /greet` route (api/main.py lines 410-426): validation, then
`GreetingResponse(message=f"Hello, {request.name}!", version=...)`. -/
def post_greet (version : String) (rawName : Option String) :
    HandlerOutcome GreetingResponseM :=
  match validate_GreetingRequest rawName with
  | Except.error _ => HandlerOutcome.httpError 422 "validation error"
  | Except.ok r =>
      HandlerOutcome.ok { message := "Hello, " ++ r.name ++ "!", version := version }

/-! ## Shared health helpers (claim C5)

`agsys/common/models.py` lines 11-18 declare `HealthResponse` with five
required fields; `agsys/common/health.py` lines 103-131 declare
`health_check_simple(service_version, start_time)` (two parameters) whose
body constructs `HealthResponse` with only four fields; and
`backend/vector/main.py` line 222 calls
`health_check_simple(SERVICE_NAME, SERVICE_VERSION, START_TIME)` with three
positional arguments. -/

/-- The required fields of the shared `HealthResponse`
(agsys/common/models.py lines 11-18): every field uses `Field(...)`, so
all five are required. -/
def healthResponseRequiredFields : List String :=
  ["status", "timestamp", "uptime_seconds", "name", "version"]

/-- The keyword arguments `health_check_simple` passes to `HealthResponse`
(agsys/common/health.py lines 126-131). -/
def healthCheckSimpleProvidedFields : List String :=
  ["status", "timestamp", "uptime_seconds", "version"]

/-- The parameter count of `health_check_simple(service_version,
start_time)` (agsys/common/health.py lines 103-106). -/
def healthCheckSimpleParamCount : Nat := 2

/-- The argument count of the call
`health_check_simple(SERVICE_NAME, SERVICE_VERSION, START_TIME)` in the
vector service's `/health` handler (backend/vector/main.py line 222). -/
def vectorHealthCallArgCount : Nat := 3

/-- Outcome of a Python call in this model: a value, a `TypeError` from an
argument/parameter arity mismatch, or a Pydantic `ValidationError`. -/
inductive PyCallOutcome (α : Type) where
  | ok (a : α)
  | typeError
  | validationError
deriving Repr, DecidableEq

/-- Pydantic model construction: succeeds iff every required field is
provided. -/
def pydanticConstruct (required provided : List String) : PyCallOutcome (List String) :=
  if required.all (fun f => provided.contains f) then PyCallOutcome.ok provided
  else PyCallOutcome.validationError

/-- The vector service's `/health` handler (backend/vector/main.py lines
219-222): it calls `health_check_simple` with three positional arguments;
were the arity right, the helper would construct the shared
`HealthResponse` from the four fields it passes. -/
def vector_health_check : PyCallOutcome (List String) :=
  if vectorHealthCallArgCount ≠ healthCheckSimpleParamCount then PyCallOutcome.typeError
  else pydanticConstruct healthResponseRequiredFields healthCheckSimpleProvidedFields

/-- `StatusResponse` (agsys/common/models.py lines 21-24). -/
structure StatusResponseM where
  status : String
deriving Repr, DecidableEq

/-- `liveness_probe_simple` (agsys/common/health.py lines 134-144). -/
def liveness_probe_simple : StatusResponseM := { status := "alive" }

/-- `readiness_probe_simple` (agsys/common/health.py lines 147-157). -/
def readiness_probe_simple : StatusResponseM := { status := "ready" }

/-! ## Interleaving model of concurrent `get_api_key` calls (claim C8)

One `get_api_key` execution on a cache miss is three atomic regions
separated by points where another thread can interleave: (1) the cache
check (line 100), (2) the secret fetch (line 106), (3) the cache write and
return (lines 113-116).  Two executions share `_cached_api_key`; the
values the store returned so far are recorded in order (`store n` is the
value the `n`-th fetch returns, so rotation during the race is covered). -/

/-- Program counter of one `get_api_key` execution. -/
inductive ThreadPC where
  | start
  | needFetch
  | haveKey (v : String)
  | done (ret : String)
deriving Repr, DecidableEq

/-- Shared state of two racing `get_api_key` executions. -/
structure RaceState where
  cache : Option String
  fetched : List String
  t1 : ThreadPC
  t2 : ThreadPC
deriving Repr, DecidableEq

/-- One atomic step of a single execution (with `cache_api_key =
cacheEnabled`), returning the new program counter, cache and fetch log. -/
def stepPC (cacheEnabled : Bool) (store : Nat → String) (cache : Option String)
    (fetched : List String) : ThreadPC → ThreadPC × Option String × List String
  | ThreadPC.start =>
      if cacheEnabled && truthy cache then
        (ThreadPC.done (cache.getD ""), cache, fetched)
      else (ThreadPC.needFetch, cache, fetched)
  | ThreadPC.needFetch =>
      let v := store fetched.length
      (ThreadPC.haveKey v, cache, fetched ++ [v])
  | ThreadPC.haveKey v =>
      (ThreadPC.done v, if cacheEnabled then some v else cache, fetched)
  | ThreadPC.done r => (ThreadPC.done r, cache, fetched)

/-- Step the thread selected by `pick` (`true` = first thread). -/
def raceStep (cacheEnabled : Bool) (store : Nat → String) (s : RaceState)
    (pick : Bool) : RaceState :=
  if pick then
    let r := stepPC cacheEnabled store s.cache s.fetched s.t1
    { cache := r.2.1, fetched := r.2.2, t1 := r.1, t2 := s.t2 }
  else
    let r := stepPC cacheEnabled store s.cache s.fetched s.t2
    { cache := r.2.1, fetched := r.2.2, t1 := s.t1, t2 := r.1 }

/-- Run a schedule (an arbitrary interleaving of the two executions). -/
def raceRun (cacheEnabled : Bool) (store : Nat → String) :
    List Bool → RaceState → RaceState
  | [], s => s
  | pick :: rest, s => raceRun cacheEnabled store rest (raceStep cacheEnabled store s pick)

/-- Both executions start against an empty cache. -/
def raceInit : RaceState :=
  { cache := none, fetched := [], t1 := ThreadPC.start, t2 := ThreadPC.start }

/-- Upper bound on the fetches a thread has performed, by program counter. -/
def pcFetchWeight : ThreadPC → Nat
  | ThreadPC.start => 0
  | ThreadPC.needFetch => 0
  | ThreadPC.haveKey _ => 1
  | ThreadPC.done _ => 1

/-- Thread-local part of the race invariant: any key a thread holds or
has returned is in the fetch log. -/
@[reducible] def pcOK (fetched : List String) (pc : ThreadPC) : Prop :=
  (∀ v, pc = ThreadPC.haveKey v → v ∈ fetched) ∧
  (∀ r, pc = ThreadPC.done r → r ∈ fetched)

/-- Invariant of the race: the fetch log is exactly the store's answers in
order; its length is bounded by the per-thread fetch weights; and the
cache, any held key and any returned key are store-returned values. -/
@[reducible] def raceInv (store : Nat → String) (s : RaceState) : Prop :=
  s.fetched = (List.range s.fetched.length).map store ∧
  s.fetched.length ≤ pcFetchWeight s.t1 + pcFetchWeight s.t2 ∧
  (∀ v, s.cache = some v → v ∈ s.fetched) ∧
  pcOK s.fetched s.t1 ∧
  pcOK s.fetched s.t2

/-! ## Concrete inputs used by witnesses and counterexamples -/

/-- A concrete client: `ServiceAPIClient("svc", "proj", "dev")` with the
default `cache_api_key=True` and an empty cache. -/
def wClient : ClientState :=
  { serviceName := "svc", projectName := "proj", environment := "dev",
    cacheApiKey := true, cachedApiKey := none }

/-- A secret store holding the non-empty key `"k"` under every name. -/
def wStore : SecretStore := fun _ => SecretResult.resp (some "k")

/-- A secret store holding the empty string under every name. -/
def wStoreEmpty : SecretStore := fun _ => SecretResult.resp (some "")

/-! ## Theorems -/

/-- On a cache miss (disabled cache or non-truthy cached value), when the
store holds a string secret, `get_api_key` queries the store at the
documented secret name, returns the secret, and caches it iff
`cache_api_key` is set. -/
theorem getApiKey_miss_eq (store : SecretStore) (c : ClientState) (v : String)
    (hmiss : (c.cacheApiKey && truthy c.cachedApiKey) = false)
    (hs : store (secretName c) = SecretResult.resp (some v)) :
    getApiKey store c =
      { result := Except.ok v,
        state := if c.cacheApiKey then { c with cachedApiKey := some v } else c,
        storeCalled := some (secretName c) } := by
  simp [getApiKey, hmiss, hs]

/-- On a cache hit (cache enabled, cached value non-empty), `get_api_key`
returns the cached value without touching the store or the state. -/
theorem getApiKey_hit_eq (store : SecretStore) (c : ClientState) (v : String)
    (hc : c.cacheApiKey = true) (hv : c.cachedApiKey = some v) (hne : v ≠ "") :
    getApiKey store c =
      { result := Except.ok v, state := c, storeCalled := none } := by
  simp [getApiKey, truthy, hc, hv, hne]

/-- C1 (amended): for a client with `cache_api_key=True`, an empty cache,
and a store holding a NON-EMPTY secret under the documented name
`{project_name}/{environment}/{service_name}/api-key`, the first call
fetches that secret and caches it; every subsequent call returns the
cached value with no further store call; and after
`invalidate_api_key_cache()` the next call contacts the store again. -/
theorem C1_api_key_cache (store : SecretStore) (c : ClientState) (v : String)
    (hc : c.cacheApiKey = true) (h0 : c.cachedApiKey = none)
    (hs : store (secretName c) = SecretResult.resp (some v)) (hv : v ≠ "") :
    (getApiKey store c).storeCalled = some (secretName c) ∧
    (getApiKey store c).result = Except.ok v ∧
    (getApiKey store c).state.cachedApiKey = some v ∧
    (∀ n, 1 ≤ n →
      (getApiKey store (iterateCalls store c n)).storeCalled = none ∧
      (getApiKey store (iterateCalls store c n)).result = Except.ok v) ∧
    (∀ n, 1 ≤ n →
      (getApiKey store (invalidateApiKeyCache (iterateCalls store c n))).storeCalled =
        some (secretName c)) := by
  have hmiss : (c.cacheApiKey && truthy c.cachedApiKey) = false := by
    simp [h0, truthy]
  have hfirst := getApiKey_miss_eq store c v hmiss hs
  rw [hc] at hfirst
  simp only [if_true] at hfirst
  have hname : secretName { c with cachedApiKey := some v } = secretName c := rfl
  have hhit : getApiKey store { c with cachedApiKey := some v } =
      { result := Except.ok v, state := { c with cachedApiKey := some v },
        storeCalled := none } :=
    getApiKey_hit_eq store _ v hc rfl hv
  have hiter : ∀ n, iterateCalls store c (n + 1) = { c with cachedApiKey := some v } := by
    intro n
    induction n with
    | zero =>
        show (getApiKey store c).state = _
        rw [hfirst, hc]
    | succ m ih =>
        show (getApiKey store (iterateCalls store c (m + 1))).state = _
        rw [ih, hhit]
  have hinvc : invalidateApiKeyCache { c with cachedApiKey := some v } = c := by
    cases c
    simp_all [invalidateApiKeyCache]
  refine ⟨by rw [hfirst], by rw [hfirst], by rw [hfirst], ?_, ?_⟩
  · intro n hn
    cases n with
    | zero => omega
    | succ m => rw [hiter m, hhit]; exact ⟨rfl, rfl⟩
  · intro n hn
    cases n with
    | zero => omega
    | succ m => rw [hiter m, hinvc, hfirst]

/-- C1 counterexample: with the secret value `""` the claim as stated
fails — the first `get_api_key` call succeeds (returning `""`), yet the
very next call makes a further secret-store call. -/
theorem C1_counterexample :
    (getApiKey wStoreEmpty wClient).result = Except.ok "" ∧
    (getApiKey wStoreEmpty (getApiKey wStoreEmpty wClient).state).storeCalled =
      some "proj/dev/svc/api-key" := by
  constructor <;> rfl

/-- C1 witness: concrete run with secret `"k"`. -/
theorem C1_api_key_cache_witness :
    (getApiKey wStore wClient).result = Except.ok "k" ∧
    (getApiKey wStore (iterateCalls wStore wClient 1)).storeCalled = none := by
  have h := C1_api_key_cache wStore wClient "k" rfl rfl rfl (by decide)
  exact ⟨h.2.1, (h.2.2.2.1 1 (by decide)).1⟩

/-- C10: when the stored secret is the empty string, caching is
ineffective — every `get_api_key` call (no matter how many preceded it)
still queries the secret store, because the cached `""` is falsy. -/
theorem C10_empty_secret_defeats_cache (store : SecretStore) (c : ClientState)
    (hc : c.cacheApiKey = true) (h0 : c.cachedApiKey = none)
    (hs : store (secretName c) = SecretResult.resp (some "")) :
    ∀ n, (getApiKey store (iterateCalls store c n)).storeCalled = some (secretName c) ∧
      (getApiKey store (iterateCalls store c n)).result = Except.ok "" := by
  have hstep : ∀ s : ClientState, (s = c ∨ s = { c with cachedApiKey := some "" }) →
      getApiKey store s =
        { result := Except.ok "", state := { c with cachedApiKey := some "" },
          storeCalled := some (secretName c) } := by
    intro s hsor
    have hname : secretName { c with cachedApiKey := some "" } = secretName c := rfl
    rcases hsor with h | h
    · subst h
      have hmiss : (s.cacheApiKey && truthy s.cachedApiKey) = false := by
        simp [h0, truthy]
      rw [getApiKey_miss_eq store s "" hmiss hs, hc]
      simp
    · subst h
      have hmiss : ((ClientState.mk c.serviceName c.projectName c.environment
          c.cacheApiKey (some "")).cacheApiKey &&
          truthy (ClientState.mk c.serviceName c.projectName c.environment
            c.cacheApiKey (some "")).cachedApiKey) = false := by
        simp [truthy]
      rw [getApiKey_miss_eq store _ "" hmiss (by rw [hname]; exact hs), hname, hc]
      simp
  have hmem : ∀ n, iterateCalls store c n = c ∨
      iterateCalls store c n = { c with cachedApiKey := some "" } := by
    intro n
    induction n with
    | zero => exact Or.inl rfl
    | succ m ih =>
        right
        show (getApiKey store (iterateCalls store c m)).state = _
        rw [hstep _ ih]
  intro n
  rw [hstep _ (hmem n)]
  exact ⟨rfl, rfl⟩

/-- C10 witness: the second call on a client whose store holds `""` still
queries the store. -/
theorem C10_witness :
    (getApiKey wStoreEmpty (iterateCalls wStoreEmpty wClient 1)).storeCalled =
      some (secretName wClient) :=
  (C10_empty_secret_defeats_cache wStoreEmpty wClient rfl rfl rfl 1).1

/-- Replacing the value at `k` does not change lookups at other keys. -/
theorem dictLookup_map_replace (d : Dict) (k v k2 : String) (h : k2 ≠ k) :
    dictLookup (d.map (fun p => if p.1 = k then (k, v) else p)) k2 = dictLookup d k2 := by
  induction d with
  | nil => rfl
  | cons hd tl ih =>
      obtain ⟨k3, v3⟩ := hd
      by_cases hk : k3 = k
      · subst hk
        have heq : (if (k3, v3).1 = k3 then (k3, v) else (k3, v3)) = (k3, v) := by simp
        rw [List.map_cons, heq]
        simp only [dictLookup]
        rw [if_neg (fun hkk => h hkk.symm), if_neg (fun hkk => h hkk.symm)]
        exact ih
      · have heq : (if (k3, v3).1 = k then (k, v) else (k3, v3)) = (k3, v3) := by simp [hk]
        rw [List.map_cons, heq]
        simp only [dictLookup]
        by_cases hh : k3 = k2
        · rw [if_pos hh, if_pos hh]
        · rw [if_neg hh, if_neg hh]; exact ih

/-- Appending a binding for `k` does not change lookups at other keys. -/
theorem dictLookup_append_single (d : Dict) (k v k2 : String) (h : k2 ≠ k) :
    dictLookup (d ++ [(k, v)]) k2 = dictLookup d k2 := by
  induction d with
  | nil =>
      simp only [List.nil_append, dictLookup]
      rw [if_neg (fun hkk => h hkk.symm)]
  | cons hd tl ih =>
      obtain ⟨k3, v3⟩ := hd
      simp only [List.cons_append, dictLookup]
      by_cases hh : k3 = k2
      · rw [if_pos hh, if_pos hh]
      · rw [if_neg hh, if_neg hh]; exact ih

/-- When `k` is present, replacing its value makes lookups at `k` yield
the new value. -/
theorem dictLookup_map_replace_self (d : Dict) (k v : String)
    (hmem : dictHasKey d k = true) :
    dictLookup (d.map (fun p => if p.1 = k then (k, v) else p)) k = some v := by
  induction d with
  | nil => simp [dictHasKey] at hmem
  | cons hd tl ih =>
      obtain ⟨k3, v3⟩ := hd
      by_cases hk : k3 = k
      · subst hk
        have heq : (if (k3, v3).1 = k3 then (k3, v) else (k3, v3)) = (k3, v) := by simp
        rw [List.map_cons, heq]
        simp [dictLookup]
      · have heq : (if (k3, v3).1 = k then (k, v) else (k3, v3)) = (k3, v3) := by simp [hk]
        rw [List.map_cons, heq]
        simp only [dictLookup]
        rw [if_neg hk]
        refine ih ?_
        simp only [dictHasKey, List.any_cons, Bool.or_eq_true, beq_iff_eq] at hmem
        rcases hmem with hcase | hcase
        · exact absurd hcase hk
        · simpa [dictHasKey] using hcase

/-- When `k` is absent, appending `(k, v)` makes lookups at `k` yield
`v`. -/
theorem dictLookup_append_self (d : Dict) (k v : String)
    (hmem : dictHasKey d k = false) :
    dictLookup (d ++ [(k, v)]) k = some v := by
  induction d with
  | nil => simp [dictLookup]
  | cons hd tl ih =>
      obtain ⟨k3, v3⟩ := hd
      by_cases hk : k3 = k
      · exfalso
        have : dictHasKey ((k3, v3) :: tl) k = true := by
          simp [dictHasKey, List.any_cons, hk]
        rw [this] at hmem
        simp at hmem
      · simp only [List.cons_append, dictLookup]
        rw [if_neg hk]
        refine ih ?_
        simpa [dictHasKey, List.any_cons, hk] using hmem

/-- After `d[k] = v`, looking up `k` yields `v`. -/
theorem dictLookup_set_self (d : Dict) (k v : String) :
    dictLookup (dictSet d k v) k = some v := by
  unfold dictSet
  by_cases hmem : dictHasKey d k = true
  · rw [if_pos hmem]
    exact dictLookup_map_replace_self d k v hmem
  · rw [if_neg hmem]
    exact dictLookup_append_self d k v (by simpa using hmem)

/-- After `d[k] = v`, lookups at every other key are unchanged. -/
theorem dictLookup_set_other (d : Dict) (k v k2 : String) (h : k2 ≠ k) :
    dictLookup (dictSet d k v) k2 = dictLookup d k2 := by
  unfold dictSet
  by_cases hmem : dictHasKey d k = true
  · rw [if_pos hmem]; exact dictLookup_map_replace d k v k2 h
  · rw [if_neg hmem]; exact dictLookup_append_single d k v k2 h

/-- C2: every request sent through `get`/`post`/`put`/`delete` carries the
caller's headers plus `x-api-key` bound to the key `get_api_key` returned;
a caller-supplied `x-api-key` is overwritten, every other caller entry is
preserved, and the caller's own headers dict is unchanged (the client
writes into a copy). -/
theorem C2_header_injection (m : HttpMethod) (store : SecretStore) (c : ClientState)
    (url : String) (headers : Option Dict) (k : String)
    (hk : (getApiKey store c).result = Except.ok k) :
    ∃ r c2, sendVia m store c url headers = Except.ok (r, c2) ∧
      dictLookup r.headersSent "x-api-key" = some k ∧
      (∀ key, key ≠ "x-api-key" →
        dictLookup r.headersSent key = dictLookup (headers.getD []) key) ∧
      r.callerHeadersAfter = headers := by
  refine ⟨{ method := m, url := url,
            headersSent := dictSet (headers.getD []) "x-api-key" k,
            callerHeadersAfter := headers }, (getApiKey store c).state, ?_, ?_, ?_, rfl⟩
  · unfold sendVia getHeadersM
    simp only [hk]
    cases headers <;> rfl
  · exact dictLookup_set_self _ _ _
  · intro key hkey
    exact dictLookup_set_other _ _ _ _ hkey

/-- C2 witness: a concrete GET with a caller-supplied `x-api-key` that
gets overwritten and an unrelated entry that is preserved. -/
theorem C2_header_injection_witness :
    ∃ r c2, sendVia HttpMethod.get wStore wClient "https://gw/runner/health"
        (some [("a", "1"), ("x-api-key", "old")]) = Except.ok (r, c2) ∧
      dictLookup r.headersSent "x-api-key" = some "k" ∧
      dictLookup r.headersSent "a" = some "1" ∧
      r.callerHeadersAfter = some [("a", "1"), ("x-api-key", "old")] := by
  obtain ⟨r, c2, h1, h2, h3, h4⟩ :=
    C2_header_injection HttpMethod.get wStore wClient "https://gw/runner/health"
      (some [("a", "1"), ("x-api-key", "old")]) "k" rfl
  refine ⟨r, c2, h1, h2, ?_, h4⟩
  have := h3 "a" (by decide)
  simpa [dictLookup] using this

/-- C9: `get_service_url` returns the base URL stripped of all trailing
slashes, followed by `/` and the service name, whether the base URL is
passed explicitly or read from `API_GATEWAY_URL`; with no argument and the
variable unset or empty it raises `ValueError`.  The last two conjuncts
characterise the stripping: the base splits as the result followed by only
`/` characters, and the result has no trailing `/`. -/
theorem C9_get_service_url (name b : String) (env : Option String) :
    (b ≠ "" → get_service_url name (some b) env =
      Except.ok (rstripSlashes b ++ "/" ++ name)) ∧
    (env = some b → b ≠ "" → get_service_url name none env =
      Except.ok (rstripSlashes b ++ "/" ++ name)) ∧
    (get_service_url name none none = Except.error noBaseUrlMsg) ∧
    (get_service_url name none (some "") = Except.error noBaseUrlMsg) ∧
    (∃ kcount, b.data = (rstripSlashes b).data ++ List.replicate kcount '/') ∧
    (∀ ch, (rstripSlashes b).data.getLast? = some ch → ch ≠ '/') := by
  have hhead : ∀ (l : List Char) (ch : Char),
      (l.dropWhile (fun c0 => c0 == '/')).head? = some ch → (ch == '/') = false := by
    intro l
    induction l with
    | nil => intro ch h; simp [List.dropWhile] at h
    | cons hd tl ih =>
        intro ch h
        rw [List.dropWhile_cons] at h
        by_cases hp : (hd == '/') = true
        · rw [if_pos hp] at h; exact ih ch h
        · rw [if_neg hp] at h
          simp only [List.head?_cons, Option.some.injEq] at h
          subst h
          exact Bool.not_eq_true _ ▸ (by simpa using hp)
  refine ⟨?_, ?_, ?_, ?_, ?_, ?_⟩
  · intro hb
    simp [get_service_url, hb]
  · intro henv hb
    subst henv
    simp [get_service_url, hb]
  · rfl
  · rfl
  · have hdata : (rstripSlashes b).data =
        (b.data.reverse.dropWhile (fun c0 => c0 == '/')).reverse := rfl
    rw [hdata]
    refine ⟨(b.data.reverse.takeWhile (fun c0 => c0 == '/')).length, ?_⟩
    set t := b.data.reverse.takeWhile (fun c0 => c0 == '/') with ht
    set d0 := b.data.reverse.dropWhile (fun c0 => c0 == '/') with hd0
    have hsplit : t ++ d0 = b.data.reverse :=
      List.takeWhile_append_dropWhile _ _
    have hrep : t = List.replicate t.length '/' := by
      apply List.eq_replicate_of_mem
      intro x hx
      rw [ht] at hx
      simpa using List.mem_takeWhile_imp hx
    have h1 : t.reverse = List.replicate t.length '/' := by
      conv_lhs => rw [hrep]
      rw [List.reverse_replicate]
    rw [← h1, ← List.reverse_append, hsplit, List.reverse_reverse]
  · intro ch hlast
    have hdata : (rstripSlashes b).data =
        (b.data.reverse.dropWhile (fun c0 => c0 == '/')).reverse := rfl
    rw [hdata, List.getLast?_reverse] at hlast
    have := hhead _ ch hlast
    simpa using this

/-- C9 witness: a base URL with trailing slashes, the env-var path, and
the empty-env failure, all at concrete inputs. -/
theorem C9_get_service_url_witness :
    get_service_url "runner" (some "https://gw///") none =
      Except.ok (rstripSlashes "https://gw///" ++ "/" ++ "runner") ∧
    get_service_url "runner" none (some "https://gw") =
      Except.ok (rstripSlashes "https://gw" ++ "/" ++ "runner") ∧
    get_service_url "runner" none none = Except.error noBaseUrlMsg := by
  refine ⟨(C9_get_service_url "runner" "https://gw///" none).1 (by decide),
    (C9_get_service_url "runner" "https://gw" (some "https://gw")).2.1 rfl (by decide),
    (C9_get_service_url "runner" "x" none).2.2.1⟩

/-- C3: in `generate_embedding` a `ClientError` from the Bedrock call
yields 503 with the error code in the detail and any other exception 500;
in the `/inter-service` endpoint an `httpx.RequestError` yields 503 and
any other exception 500. -/
theorem C3_dependency_errors (modelId : String) (s3put : Except PyExc Unit)
    (req : EmbeddingRequestM) (code msg url : String) :
    generate_embedding modelId (BedrockResult.clientError code) s3put req =
      HandlerOutcome.httpError 503 ("Bedrock error: " ++ code) ∧
    generate_embedding modelId (BedrockResult.exc msg) s3put req =
      HandlerOutcome.httpError 500 ("Failed to generate embedding: " ++ msg) ∧
    call_service url (HttpxResult.requestError msg) =
      HandlerOutcome.httpError 503 ("Failed to reach service at " ++ url ++ ": " ++ msg) ∧
    call_service url (HttpxResult.exc msg) =
      HandlerOutcome.httpError 500
        ("Unexpected error calling service at " ++ url ++ ": " ++ msg) :=
  ⟨rfl, rfl, rfl, rfl⟩

/-- C4: a missing resource yields 404 and leaves the store unchanged —
`GET /embeddings/{id}` responds 404 on `NoSuchKey` issuing no S3 write,
and `DELETE /embeddings/{id}` responds 404 without issuing a delete when
`head_object` reports error code `"404"`. -/
theorem C4_missing_resource_404 (bucket : String) (hb : bucket ≠ "")
    (embedding_id : String) (deleteCall : Except PyExc Unit) :
    retrieve_embedding bucket S3GetResult.noSuchKey embedding_id =
      (HandlerOutcome.httpError 404 ("Embedding not found: " ++ embedding_id), []) ∧
    delete_embedding bucket (HeadResult.clientError "404") deleteCall embedding_id =
      (HandlerOutcome.httpError 404 ("Embedding not found: " ++ embedding_id), []) := by
  constructor
  · simp [retrieve_embedding, hb]
  · simp [delete_embedding, hb]

/-- C4 witness: concrete bucket and id. -/
theorem C4_missing_resource_404_witness :
    retrieve_embedding "bkt" S3GetResult.noSuchKey "e1" =
      (HandlerOutcome.httpError 404 ("Embedding not found: " ++ "e1"), []) ∧
    delete_embedding "bkt" (HeadResult.clientError "404") (Except.ok ()) "e1" =
      (HandlerOutcome.httpError 404 ("Embedding not found: " ++ "e1"), []) :=
  C4_missing_resource_404 "bkt" (by decide) "e1" (Except.ok ())

/-- C5: the claim that every service's `/health` returns a healthy DTO
fails for the vector service — its handler calls `health_check_simple`
with three positional arguments against a two-parameter signature
(`TypeError`), and even with matching arity the helper omits the required
`name` field of the shared `HealthResponse` (`ValidationError`).  The
liveness/readiness helpers do return `"alive"`/`"ready"`. -/
theorem C5_vector_health_code_bug :
    vector_health_check = PyCallOutcome.typeError ∧
    pydanticConstruct healthResponseRequiredFields healthCheckSimpleProvidedFields =
      PyCallOutcome.validationError ∧
    liveness_probe_simple.status = "alive" ∧
    readiness_probe_simple.status = "ready" := by
  refine ⟨rfl, ?_, rfl, rfl⟩
  decide

/-- C6: a body failing model validation is rejected with 422 before the
handler runs — `POST /embeddings/generate` with `text` absent or empty
yields 422 with zero Bedrock calls, and a greeting POST missing `name`
yields 422. -/
theorem C6_validation_422 (modelId : String) (bedrock : BedrockResult)
    (s3put : Except PyExc Unit) (sis : Option Bool) (eid : Option (Option String))
    (version : String) :
    post_embeddings_generate modelId bedrock s3put
        { text := none, store_in_s3 := sis, embedding_id := eid } =
      (HandlerOutcome.httpError 422 "validation error", 0) ∧
    post_embeddings_generate modelId bedrock s3put
        { text := some "", store_in_s3 := sis, embedding_id := eid } =
      (HandlerOutcome.httpError 422 "validation error", 0) ∧
    post_greet version none = HandlerOutcome.httpError 422 "validation error" :=
  ⟨rfl, rfl, rfl⟩

/-- C7: with `store_in_s3=true`, `embedding_id` absent and a successful
Bedrock call, the 400 `HTTPException` is swallowed by the enclosing
`except Exception` and re-raised as a 500 "Failed to generate embedding"
error; the response is not the 400. -/
theorem C7_missing_embedding_id_500 (modelId : String) (emb : EmbVec)
    (s3put : Except PyExc Unit) (text : String) :
    generate_embedding modelId (BedrockResult.ok emb) s3put
        { text := text, store_in_s3 := true, embedding_id := none } =
      HandlerOutcome.httpError 500
        ("Failed to generate embedding: 400: embedding_id required when store_in_s3=true") ∧
    generate_embedding modelId (BedrockResult.ok emb) s3put
        { text := text, store_in_s3 := true, embedding_id := none } ≠
      HandlerOutcome.httpError 400 "embedding_id required when store_in_s3=true" := by
  have h1 : generate_embedding modelId (BedrockResult.ok emb) s3put
      { text := text, store_in_s3 := true, embedding_id := none } =
      HandlerOutcome.httpError 500
        ("Failed to generate embedding: 400: embedding_id required when store_in_s3=true") :=
    rfl
  refine ⟨h1, ?_⟩
  rw [h1]
  simp

/-- `pcOK` is preserved when the fetch log grows. -/
theorem pcOK_append (fetched l : List String) (pc : ThreadPC) (h : pcOK fetched pc) :
    pcOK (fetched ++ l) pc := by
  obtain ⟨h1, h2⟩ := h
  exact ⟨fun v hv => List.mem_append_left _ (h1 v hv),
         fun r hr => List.mem_append_left _ (h2 r hr)⟩

/-- Appending the store's next answer preserves the fetch-log
characterisation. -/
theorem fetchedChar_append (store : Nat → String) (l : List String)
    (hl : l = (List.range l.length).map store) :
    l ++ [store l.length] =
      (List.range (l ++ [store l.length]).length).map store := by
  have hlen : (l ++ [store l.length]).length = l.length + 1 := by simp
  rw [hlen, List.range_succ, List.map_append, ← hl]
  simp

/-- One step of either execution preserves the race invariant
componentwise (stated for the stepping thread `pcA` against the other
thread `pcB`). -/
theorem stepPC_preserves (cacheEnabled : Bool) (store : Nat → String)
    (cache : Option String) (fetched : List String) (pcA pcB : ThreadPC)
    (hchar : fetched = (List.range fetched.length).map store)
    (hlen : fetched.length ≤ pcFetchWeight pcA + pcFetchWeight pcB)
    (hcache : ∀ v, cache = some v → v ∈ fetched)
    (hA : pcOK fetched pcA) (hB : pcOK fetched pcB) :
    (stepPC cacheEnabled store cache fetched pcA).2.2 =
      (List.range (stepPC cacheEnabled store cache fetched pcA).2.2.length).map store ∧
    (stepPC cacheEnabled store cache fetched pcA).2.2.length ≤
      pcFetchWeight (stepPC cacheEnabled store cache fetched pcA).1 + pcFetchWeight pcB ∧
    (∀ v, (stepPC cacheEnabled store cache fetched pcA).2.1 = some v →
      v ∈ (stepPC cacheEnabled store cache fetched pcA).2.2) ∧
    pcOK (stepPC cacheEnabled store cache fetched pcA).2.2
      (stepPC cacheEnabled store cache fetched pcA).1 ∧
    pcOK (stepPC cacheEnabled store cache fetched pcA).2.2 pcB := by
  cases pcA with
  | start =>
      cases hc : cache with
      | none =>
          simp only [stepPC, hc, truthy, Bool.and_false]
          refine ⟨hchar, ?_, ?_, ?_, hB⟩
          · simpa [pcFetchWeight] using hlen
          · intro v hv; cases hv
          · exact ⟨fun v hv => (by cases hv), fun r hr => (by cases hr)⟩
      | some c =>
          by_cases hcnd : (cacheEnabled && (c != "")) = true
          · simp only [stepPC, hc, truthy]
            rw [if_pos hcnd]
            simp only [Option.getD_some]
            refine ⟨hchar, ?_, ?_, ?_, hB⟩
            · simp only [pcFetchWeight] at hlen ⊢
              omega
            · intro v hv; exact hcache v (hc.trans hv)
            · refine ⟨fun v hv => (by cases hv), fun r hr => ?_⟩
              cases hr
              exact hcache c hc
          · simp only [stepPC, hc, truthy]
            rw [if_neg hcnd]
            refine ⟨hchar, ?_, ?_, ?_, hB⟩
            · simpa [pcFetchWeight] using hlen
            · intro v hv; exact hcache v (hc.trans hv)
            · exact ⟨fun v hv => (by cases hv), fun r hr => (by cases hr)⟩
  | needFetch =>
      simp only [stepPC]
      refine ⟨fetchedChar_append store fetched hchar, ?_, ?_, ?_, pcOK_append _ _ _ hB⟩
      · simp only [pcFetchWeight, List.length_append, List.length_singleton] at hlen ⊢
        omega
      · intro v hv
        exact List.mem_append_left _ (hcache v hv)
      · refine ⟨fun v hv => ?_, fun r hr => (by cases hr)⟩
        cases hv
        exact List.mem_append_right _ (List.mem_singleton.mpr rfl)
  | haveKey v0 =>
      simp only [stepPC]
      refine ⟨hchar, ?_, ?_, ?_, hB⟩
      · simpa [pcFetchWeight] using hlen
      · intro v hv
        cases cacheEnabled with
        | true =>
            have hv2 : some v0 = some v := hv
            cases hv2
            exact hA.1 _ rfl
        | false =>
            have hv2 : cache = some v := hv
            exact hcache v hv2
      · refine ⟨fun v hv => (by cases hv), fun r hr => ?_⟩
        cases hr
        exact hA.1 v0 rfl
  | done r0 =>
      simp only [stepPC]
      refine ⟨hchar, ?_, ?_, ?_, hB⟩
      · simpa [pcFetchWeight] using hlen
      · exact hcache
      · exact hA

/-- Each interleaving step preserves the race invariant. -/
theorem raceStep_inv (cacheEnabled : Bool) (store : Nat → String) (s : RaceState)
    (pick : Bool) (h : raceInv store s) :
    raceInv store (raceStep cacheEnabled store s pick) := by
  obtain ⟨hchar, hlen, hcache, hA, hB⟩ := h
  cases pick with
  | true =>
      have H := stepPC_preserves cacheEnabled store s.cache s.fetched s.t1 s.t2
        hchar hlen hcache hA hB
      have hgoal : raceStep cacheEnabled store s true =
          { cache := (stepPC cacheEnabled store s.cache s.fetched s.t1).2.1,
            fetched := (stepPC cacheEnabled store s.cache s.fetched s.t1).2.2,
            t1 := (stepPC cacheEnabled store s.cache s.fetched s.t1).1,
            t2 := s.t2 } := rfl
      rw [hgoal]
      exact ⟨H.1, H.2.1, H.2.2.1, H.2.2.2.1, H.2.2.2.2⟩
  | false =>
      have H := stepPC_preserves cacheEnabled store s.cache s.fetched s.t2 s.t1
        hchar (by omega) hcache hB hA
      have hgoal : raceStep cacheEnabled store s false =
          { cache := (stepPC cacheEnabled store s.cache s.fetched s.t2).2.1,
            fetched := (stepPC cacheEnabled store s.cache s.fetched s.t2).2.2,
            t1 := s.t1,
            t2 := (stepPC cacheEnabled store s.cache s.fetched s.t2).1 } := rfl
      rw [hgoal]
      refine ⟨H.1, ?_, H.2.2.1, H.2.2.2.2, H.2.2.2.1⟩
      have h2 := H.2.1
      dsimp only
      omega

/-- Every schedule preserves the race invariant. -/
theorem raceRun_inv (cacheEnabled : Bool) (store : Nat → String) :
    ∀ (sched : List Bool) (s : RaceState), raceInv store s →
      raceInv store (raceRun cacheEnabled store sched s) := by
  intro sched
  induction sched with
  | nil => intro s h; exact h
  | cons pick rest ih =>
      intro s h
      exact ih _ (raceStep_inv cacheEnabled store s pick h)

/-- C8: for every interleaving of two `get_api_key` executions on the
same client (any `cache_api_key` setting), at most two secret-store
fetches occur (worst case one duplicate), every value either execution
returns is a value the store returned, the cache afterwards holds such a
value, and the fetch log is exactly the store's answers in order. -/
theorem C8_concurrent_get_api_key (cacheEnabled : Bool) (store : Nat → String)
    (sched : List Bool) :
    (raceRun cacheEnabled store sched raceInit).fetched.length ≤ 2 ∧
    (∀ r, (raceRun cacheEnabled store sched raceInit).t1 = ThreadPC.done r →
      r ∈ (raceRun cacheEnabled store sched raceInit).fetched) ∧
    (∀ r, (raceRun cacheEnabled store sched raceInit).t2 = ThreadPC.done r →
      r ∈ (raceRun cacheEnabled store sched raceInit).fetched) ∧
    (∀ v, (raceRun cacheEnabled store sched raceInit).cache = some v →
      v ∈ (raceRun cacheEnabled store sched raceInit).fetched) ∧
    (raceRun cacheEnabled store sched raceInit).fetched =
      (List.range (raceRun cacheEnabled store sched raceInit).fetched.length).map store := by
  have hinit : raceInv store raceInit := by
    refine ⟨rfl, by simp [raceInit, pcFetchWeight], ?_, ?_, ?_⟩
    · intro v hv; cases hv
    · exact ⟨fun v hv => (by cases hv), fun r hr => (by cases hr)⟩
    · exact ⟨fun v hv => (by cases hv), fun r hr => (by cases hr)⟩
  have hinv := raceRun_inv cacheEnabled store sched raceInit hinit
  obtain ⟨hchar, hlen, hcache, hA, hB⟩ := hinv
  have hw1 : pcFetchWeight (raceRun cacheEnabled store sched raceInit).t1 ≤ 1 := by
    cases (raceRun cacheEnabled store sched raceInit).t1 <;> simp [pcFetchWeight]
  have hw2 : pcFetchWeight (raceRun cacheEnabled store sched raceInit).t2 ≤ 1 := by
    cases (raceRun cacheEnabled store sched raceInit).t2 <;> simp [pcFetchWeight]
  exact ⟨by omega, hA.2, hB.2, hcache, hchar⟩

/-- C8 witness: a concrete interleaving in which the first execution
fetches and the second hits the freshly written cache. -/
theorem C8_concurrent_get_api_key_witness :
    (raceRun true (fun _ => "k") [true, true, true, false] raceInit).fetched.length ≤ 2 ∧
    "k" ∈ (raceRun true (fun _ => "k") [true, true, true, false] raceInit).fetched := by
  have h := C8_concurrent_get_api_key true (fun _ => "k") [true, true, true, false]
  exact ⟨h.1, h.2.1 "k" rfl⟩

end AwsBase
